import Mathlib

/-!
# Verification of the `buscador` ingestion-and-query pipeline

Shallow embedding of the purchaser-search application: a React component
(`src/unnamed/part_000`) that fetches a `;`-delimited CSV export, parses it
into records, and answers case-insensitive substring queries over the
`"E-mail Comprador"` field.

The component state (`data`, `searchTerm`, `searchResults`, `loading`,
`error`, `hasSearched`, `lastUpdated`) is embedded as a Lean structure and
the event handlers (`fetchData`, its completion callbacks, `handleSearch`,
the refresh-button click) as pure state-transition functions.  The CSV
parsing is done by the external PapaParse library (configured with
`header: true`, `delimiter: ';'`, `skipEmptyLines: true`); its source is
not part of this repository, so the parser is modelled from the
specification.

String operations are embedded at the character-list level: JavaScript
`toLowerCase`, `trim` and `includes` become `jsToLower`, `jsTrim` and
`containsSubstr` (ASCII case folding, whitespace trimming, contiguous
substring containment).
-/

namespace Buscador

/-- Embedding of JavaScript `String.prototype.toLowerCase` (ASCII case
folding, character by character). -/
def jsToLower (s : String) : String :=
  ⟨s.data.map Char.toLower⟩

/-- Embedding of JavaScript `String.prototype.trim`: strip whitespace from
both ends. -/
def jsTrim (s : String) : String :=
  ⟨((s.data.dropWhile Char.isWhitespace).reverse.dropWhile Char.isWhitespace).reverse⟩

/-- Embedding of JavaScript `String.prototype.includes`: `sub` occurs
contiguously inside `s`. -/
def containsSubstr (s sub : String) : Bool :=
  decide (sub.data <:+: s.data)

/-- A parsed CSV row (the `Transaction` interface of the source): a finite
mapping from header field names to raw string cell values, represented as
an association list in header order. -/
abbrev Transaction := List (String × String)

/-- JavaScript property access `item[key]`: `none` models `undefined`
(field absent from the parsed row). -/
def getField (r : Transaction) (k : String) : Option String :=
  (r.find? (fun p => p.1 == k)).map Prod.snd

/-- The search predicate of the source
(`item["E-mail Comprador"]?.toLowerCase().includes(term)`): the optional
chaining makes an absent field falsy, hence a non-match.  `term` is the
already-normalized search term. -/
def matchesTerm (term : String) (r : Transaction) : Bool :=
  match getField r "E-mail Comprador" with
  | none => false
  | some v => containsSubstr (jsToLower v) term

/-- Normalization of a raw search term as in `handleSearch` and the
`complete` callback: `searchTerm.toLowerCase().trim()`. -/
def normalizeTerm (raw : String) : String :=
  jsTrim (jsToLower raw)

/-- The query engine of the source:
`data.filter(item => item["E-mail Comprador"]?.toLowerCase().includes(term))`
with `term = searchTerm.toLowerCase().trim()`. -/
def searchFilter (d : List Transaction) (raw : String) : List Transaction :=
  d.filter (matchesTerm (normalizeTerm raw))

/-! ## The component state and its transitions

The `App` component's `useState` hooks become the fields of `AppState`;
each event handler becomes a pure function `AppState → AppState` (paired
with a `Bool` recording whether the query engine, resp. a fetch, was
actually invoked, so that "is rejected / is never invoked" claims are
expressible). -/

/-- The React component state of `App`.  `lastUpdated` is an abstract
timestamp (`Nat`); `error : Option String` models the nullable error
message. -/
structure AppState where
  data : List Transaction
  searchTerm : String
  searchResults : List Transaction
  loading : Bool
  error : Option String
  hasSearched : Bool
  lastUpdated : Option Nat
  deriving DecidableEq, Repr

/-- Outcome of one fetch-parse cycle, resolving the single suspension point
of `fetchData`: the HTTP response is not ok (`httpFailure`), the fetch
itself throws (`networkFailure`), PapaParse signals an error
(`parseFailure`), or parsing completes with a list of records. -/
inductive FetchOutcome where
  | httpFailure (status : Nat) (statusText : String)
  | networkFailure (msg : String)
  | parseFailure (msg : String)
  | success (records : List Transaction)
  deriving DecidableEq, Repr

/-- Whether an outcome is a failed cycle (FetchError or ParseError). -/
def FetchOutcome.isFailure : FetchOutcome → Bool
  | .success _ => false
  | _ => true

/-- The error message the source displays for a failed outcome:
the `throw new Error(...)` message plus the `.` appended in the catch
block, the generic catch message, or the `CSV Parsing Error: ` prefix of
the Papa `error` callback. -/
def errorText : FetchOutcome → Option String
  | .httpFailure status statusText =>
      some ("Failed to fetch CSV file: " ++ toString status ++ " " ++ statusText ++ ".")
  | .networkFailure msg => some (msg ++ ".")
  | .parseFailure msg => some ("CSV Parsing Error: " ++ msg)
  | .success _ => none

/-- The synchronous prefix of `fetchData`: `setLoading(true); setError(null)`. -/
def fetchStart (s : AppState) : AppState :=
  { s with loading := true, error := none }

/-- The continuation of `fetchData` after the response resolves: the catch
block or Papa `error` callback on failure, the Papa `complete` callback on
success (`setData`, `setLastUpdated`, `setLoading(false)` and, when the
current search term does not trim to empty, the re-run of the search
against the new records).  The second component records whether the query
engine was invoked. -/
def fetchComplete (s : AppState) (o : FetchOutcome) (now : Nat) : AppState × Bool :=
  match o with
  | .success records =>
      if jsTrim s.searchTerm = "" then
        ({ s with data := records, lastUpdated := some now, loading := false }, false)
      else
        ({ s with data := records, lastUpdated := some now, loading := false,
                  searchResults := searchFilter records s.searchTerm }, true)
  | o => ({ s with error := errorText o, loading := false }, false)

/-- A click on the `Atualizar agora` button: the button carries
`disabled={loading}`, so while a cycle is in flight the click fires no
handler at all; otherwise `fetchData` starts.  The second component
records whether a fetch was started. -/
def refreshClick (s : AppState) : AppState × Bool :=
  if s.loading then (s, false) else (fetchStart s, true)

/-- The `handleSearch` submit handler: an empty-trimming term returns
before anything happens; otherwise `hasSearched` is set and the filter
runs.  The second component records whether the query engine was
invoked. -/
def handleSearch (s : AppState) : AppState × Bool :=
  if jsTrim s.searchTerm = "" then (s, false)
  else ({ s with hasSearched := true,
                 searchResults := searchFilter s.data s.searchTerm }, true)

/-! ## The parser

Modelled from the spec: the parse step is performed by the external
PapaParse library, whose source is not under `src/`; only its
configuration (`header: true`, `delimiter: ';'`, `skipEmptyLines: true`)
appears there.  Per spec §4.1 / §3: the first line gives the field names,
empty lines are skipped, each data row is split on `;`, extra cells are
dropped and missing cells default to the empty string, and malformed rows
never abort the parse.  Newlines are modelled as LF. -/

/-- Split a string at every occurrence of the character `c`. -/
def splitChar (c : Char) (s : String) : List String :=
  (s.data.splitOn c).map (fun l => ⟨l⟩)

/-- Join strings with the single-character separator `c`. -/
def joinChar (c : Char) (ls : List String) : String :=
  ⟨List.intercalate [c] (ls.map String.data)⟩

/-- Modelled from the spec: build one Record from the header fields and the
row's cells — cell `i` is paired with field `i`, missing cells default to
`""`, extra cells are dropped. -/
def mkRecord (header cells : List String) : Transaction :=
  header.zip (cells ++ List.replicate (header.length - cells.length) "")

/-- Modelled from the spec: parse a header-plus-rows payload: every
non-empty data row becomes a Record keyed by the header fields. -/
def parseRows (header : List String) (rows : List (List String)) : List Transaction :=
  rows.map (mkRecord header)

/-- Modelled from the spec: the whole parse of a raw payload — split into
lines, skip empty lines, take the first line as header, split every line
on `;`. -/
def parseCSV (csv : String) : List Transaction :=
  match (splitChar '\n' csv).filter (fun l => l ≠ "") with
  | [] => []
  | headerLine :: dataLines =>
      parseRows (splitChar ';' headerLine) (dataLines.map (splitChar ';'))

/-- Modelled from the spec: serialize records sharing the field set
`header` back to `;`-delimited text with a header row (spec §8
round-trip property). -/
def serializeRecords (header : List String) (recs : List Transaction) : String :=
  joinChar '\n' (joinChar ';' header :: recs.map (fun r => joinChar ';' (r.map Prod.snd)))

/-! ## Concrete data for scenarios -/

/-- The payload of the spec §8 search scenario. -/
def demoCSV : String := "Nome Comprador;E-mail Comprador\nAna;ana@x.com\nBia;bia@x.com"

/-- The record the spec §8 search scenario expects back. -/
def anaRecord : Transaction := [("Nome Comprador", "Ana"), ("E-mail Comprador", "ana@x.com")]

/-- A record whose purchaser e-mail field is present but empty. -/
def emptyEmailRecord : Transaction := [("Nome Comprador", "Zoe"), ("E-mail Comprador", "")]

/-- A quiescent initial component state (`useState` initial values, with
`loading` already settled to `false`). -/
def initialState : AppState :=
  { data := [], searchTerm := "", searchResults := [], loading := false,
    error := none, hasSearched := false, lastUpdated := none }

/-! ## Helper lemmas -/

lemma string_eq_empty_iff (s : String) : s = "" ↔ s.data = [] := by
  constructor
  · intro h
    rw [h]
  · intro h
    cases s with
    | mk d => exact congrArg String.mk h

lemma matchesTerm_iff (t : String) (r : Transaction) :
    matchesTerm t r = true ↔
      ∃ v, getField r "E-mail Comprador" = some v ∧ t.data <:+: (jsToLower v).data := by
  cases h : getField r "E-mail Comprador" with
  | none => simp [matchesTerm, h]
  | some v => simp [matchesTerm, h, containsSubstr]

lemma matchesTerm_congr (t : String) (r₁ r₂ : Transaction)
    (h : getField r₁ "E-mail Comprador" = getField r₂ "E-mail Comprador") :
    matchesTerm t r₁ = matchesTerm t r₂ := by
  unfold matchesTerm
  rw [h]

lemma intercalate_cons₂ (c : Char) (a b : List Char) (t : List (List Char)) :
    List.intercalate [c] (a :: b :: t) = a ++ [c] ++ List.intercalate [c] (b :: t) := by
  simp [List.intercalate]

lemma not_mem_intercalate (x c : Char) (hx : x ≠ c) :
    ∀ (ls : List (List Char)), (∀ l ∈ ls, x ∉ l) → x ∉ List.intercalate [c] ls
  | [], _ => by simp [List.intercalate]
  | [a], h => by
      simpa [List.intercalate] using h a (by simp)
  | a :: b :: t, h => by
      rw [intercalate_cons₂]
      have ih := not_mem_intercalate x c hx (b :: t) (fun l hl => h l (by simp [hl]))
      have ha := h a (by simp)
      simp [List.mem_append, hx, ih, ha]

lemma splitChar_joinChar (c : Char) (ls : List String) (hne : ls ≠ [])
    (hc : ∀ s ∈ ls, c ∉ s.data) : splitChar c (joinChar c ls) = ls := by
  unfold splitChar joinChar
  rw [show (⟨List.intercalate [c] (ls.map String.data)⟩ : String).data =
        List.intercalate [c] (ls.map String.data) from rfl]
  rw [List.splitOn_intercalate (ls.map String.data) c
    (by simpa using fun s hs => hc s hs) (by simpa using hne)]
  rw [List.map_map]
  conv_rhs => rw [← List.map_id ls]
  rfl

lemma mem_joinChar (c : Char) (ls : List String) (h : 2 ≤ ls.length) :
    c ∈ (joinChar c ls).data := by
  match ls, h with
  | a :: b :: t, _ =>
    show c ∈ List.intercalate [c] (a.data :: b.data :: t.map String.data)
    rw [intercalate_cons₂]
    simp

lemma joinChar_ne_empty (c : Char) (ls : List String) (h : 2 ≤ ls.length) :
    joinChar c ls ≠ "" := by
  intro he
  have := mem_joinChar c ls h
  rw [he] at this
  simp at this

lemma mkRecord_length (header cells : List String) :
    (mkRecord header cells).length = header.length := by
  simp [mkRecord]
  omega

/-! ## Claim theorems -/

/-- C3: parsing never drops or rejects a row (every row of the payload
yields a Record), every Record carries all header fields, and in a row
with fewer cells than the header every header field beyond the row's
cells is mapped to the empty string — never left absent. -/
theorem short_row_defaults_to_empty :
    (∀ (header : List String) (rows : List (List String)),
        (parseRows header rows).length = rows.length) ∧
    (∀ (header cells : List String),
        (mkRecord header cells).length = header.length) ∧
    (∀ (header cells : List String) (j : ℕ) (hj : j < header.length),
        cells.length ≤ j →
        (mkRecord header cells).get ⟨j, by rw [mkRecord_length]; exact hj⟩ =
          (header.get ⟨j, hj⟩, "")) := by
  refine ⟨fun header rows => by simp [parseRows], mkRecord_length, ?_⟩
  intro header cells j hj hcells
  simp only [mkRecord, List.get_eq_getElem, List.getElem_zip]
  rw [List.getElem_append_right hcells]
  simp

/-- C3 witness: a two-field header with a one-cell row defaults the second
field to the empty string. -/
theorem short_row_defaults_to_empty_witness :
    (mkRecord ["Nome Comprador", "E-mail Comprador"] ["Ana"]).get ⟨1, by decide⟩ =
      ("E-mail Comprador", "") :=
  short_row_defaults_to_empty.2.2 ["Nome Comprador", "E-mail Comprador"] ["Ana"] 1
    (by decide) (by decide)

/-- C2: the search returns exactly the records whose `"E-mail Comprador"`
field, lower-cased, contains the normalized (trimmed, lower-cased) term as
a contiguous substring; a record whose purchaser-e-mail field is absent or
empty never matches a non-empty term; and on the dataset parsed from
`Nome Comprador;E-mail Comprador` / `Ana;ana@x.com` / `Bia;bia@x.com`,
searching `"ANA@X.COM"` returns exactly the one record whose
`Nome Comprador` is `"Ana"`. -/
theorem search_returns_exactly_email_matches :
    (∀ (d : List Transaction) (raw : String) (r : Transaction),
        r ∈ searchFilter d raw ↔
          r ∈ d ∧ ∃ v, getField r "E-mail Comprador" = some v ∧
            (normalizeTerm raw).data <:+: (jsToLower v).data) ∧
    (∀ (d : List Transaction) (raw : String) (r : Transaction),
        normalizeTerm raw ≠ "" →
        (getField r "E-mail Comprador" = none ∨ getField r "E-mail Comprador" = some "") →
        r ∉ searchFilter d raw) ∧
    searchFilter (parseCSV demoCSV) "ANA@X.COM" = [anaRecord] ∧
    getField anaRecord "Nome Comprador" = some "Ana" := by
  refine ⟨fun d raw r => ?_, fun d raw r hne habs hmem => ?_, by decide, by decide⟩
  · rw [searchFilter, List.mem_filter, matchesTerm_iff]
  · rw [searchFilter, List.mem_filter, matchesTerm_iff] at hmem
    obtain ⟨-, v, hv, hinf⟩ := hmem
    rcases habs with habs | habs
    · rw [habs] at hv
      exact Option.noConfusion hv
    · rw [habs] at hv
      obtain rfl : v = "" := (Option.some.injEq _ _).mp hv.symm
      rw [show (jsToLower "").data = [] from rfl] at hinf
      have hnil : (normalizeTerm raw).data = [] := List.sublist_nil.mp hinf.sublist
      exact hne ((string_eq_empty_iff _).mpr hnil)

/-- C2 witness: the theorem applied to a one-record dataset whose only
record has an empty purchaser e-mail and to the non-empty term `"ana"`. -/
theorem search_returns_exactly_email_matches_witness :
    emptyEmailRecord ∉ searchFilter [emptyEmailRecord] "ana" :=
  search_returns_exactly_email_matches.2.1 [emptyEmailRecord] "ana" emptyEmailRecord
    (by decide) (Or.inr (by decide))

/-- C6: the search is deterministic and idempotent (same dataset and term
give the same result), its result is an order-preserving subsequence
(`Sublist`) of the dataset, and matching records are not deduplicated:
a record that matches keeps its full multiplicity. -/
theorem search_idempotent_order_preserving :
    (∀ (d : List Transaction) (t : String), searchFilter d t = searchFilter d t) ∧
    (∀ (d : List Transaction) (t : String), (searchFilter d t).Sublist d) ∧
    (∀ (d : List Transaction) (t : String) (r : Transaction),
        matchesTerm (normalizeTerm t) r = true →
        (searchFilter d t).count r = d.count r) := by
  refine ⟨fun d t => rfl, fun d t => List.filter_sublist d, fun d t r h => ?_⟩
  simpa [searchFilter] using List.count_filter (p := matchesTerm (normalizeTerm t)) h

/-- C6 witness: the multiplicity-preservation part applied to a dataset
holding the matching record `anaRecord` twice. -/
theorem search_idempotent_order_preserving_witness :
    (searchFilter [anaRecord, anaRecord] "ana").count anaRecord =
      ([anaRecord, anaRecord] : List Transaction).count anaRecord :=
  search_idempotent_order_preserving.2.2 [anaRecord, anaRecord] "ana" anaRecord (by decide)

/-- C9: the match decision depends only on the `"E-mail Comprador"` field:
two records of the dataset that agree on that field are either both in the
search result or both out of it, whatever their other fields. -/
theorem search_depends_only_on_email :
    ∀ (d : List Transaction) (raw : String) (r₁ r₂ : Transaction),
      r₁ ∈ d → r₂ ∈ d →
      getField r₁ "E-mail Comprador" = getField r₂ "E-mail Comprador" →
      (r₁ ∈ searchFilter d raw ↔ r₂ ∈ searchFilter d raw) := by
  intro d raw r₁ r₂ h₁ h₂ heq
  rw [searchFilter, List.mem_filter, List.mem_filter,
    matchesTerm_congr (normalizeTerm raw) r₁ r₂ heq]
  exact and_congr_left (fun _ => iff_of_true h₁ h₂)

/-- C9 witness: the theorem applied to two records sharing the e-mail
`ana@x.com` but with different purchaser names. -/
theorem search_depends_only_on_email_witness :
    ([("Nome Comprador", "Ana"), ("E-mail Comprador", "ana@x.com")] : Transaction) ∈
        searchFilter [[("Nome Comprador", "Ana"), ("E-mail Comprador", "ana@x.com")],
          [("Nome Comprador", "Zoe"), ("E-mail Comprador", "ana@x.com")]] "ana" ↔
      ([("Nome Comprador", "Zoe"), ("E-mail Comprador", "ana@x.com")] : Transaction) ∈
        searchFilter [[("Nome Comprador", "Ana"), ("E-mail Comprador", "ana@x.com")],
          [("Nome Comprador", "Zoe"), ("E-mail Comprador", "ana@x.com")]] "ana" :=
  search_depends_only_on_email _ "ana" _ _ (by decide) (by decide) (by decide)

/-- C8: serializing records that all expose the (at least two-field)
header's field set, with no `;` or newline in field names or values, to
`;`-delimited text with a header row and parsing that text back yields the
original sequence of records. -/
theorem parse_serialize_roundtrip :
    ∀ (header : List String) (recs : List Transaction),
      2 ≤ header.length →
      (∀ f ∈ header, ∀ ch ∈ f.data, ch ≠ ';' ∧ ch ≠ '\n') →
      (∀ r ∈ recs, r.map Prod.fst = header) →
      (∀ r ∈ recs, ∀ p ∈ r, ∀ ch ∈ p.2.data, ch ≠ ';' ∧ ch ≠ '\n') →
      parseCSV (serializeRecords header recs) = recs := by
  intro header recs hlen hheader hkeys hvals
  set lines : List String :=
    joinChar ';' header :: recs.map (fun r => joinChar ';' (r.map Prod.snd)) with hlines
  have hnoNL : ∀ s ∈ lines, '\n' ∉ s.data := by
    intro s hs
    rw [hlines] at hs
    rcases List.mem_cons.mp hs with rfl | hs
    · intro hmem
      have : ∀ l ∈ header.map String.data, '\n' ∉ l := by
        intro l hl
        obtain ⟨f, hf, rfl⟩ := List.mem_map.mp hl
        exact fun hc => (hheader f hf '\n' hc).2 rfl
      exact not_mem_intercalate '\n' ';' (by decide) _ this hmem
    · obtain ⟨r, hr, rfl⟩ := List.mem_map.mp hs
      intro hmem
      have : ∀ l ∈ (r.map Prod.snd).map String.data, '\n' ∉ l := by
        intro l hl
        obtain ⟨v, hv, rfl⟩ := List.mem_map.mp hl
        obtain ⟨p, hp, rfl⟩ := List.mem_map.mp hv
        exact fun hc => (hvals r hr p hp '\n' hc).2 rfl
      exact not_mem_intercalate '\n' ';' (by decide) _ this hmem
  have hsplit : splitChar '\n' (serializeRecords header recs) = lines := by
    rw [serializeRecords, ← hlines]
    exact splitChar_joinChar '\n' lines (by simp [hlines]) hnoNL
  have hrlen : ∀ r ∈ recs, (r.map Prod.snd).length = header.length := by
    intro r hr
    rw [← hkeys r hr]
    simp
  have hlineNE : ∀ s ∈ lines, s ≠ "" := by
    intro s hs
    rw [hlines] at hs
    rcases List.mem_cons.mp hs with rfl | hs
    · exact joinChar_ne_empty ';' header hlen
    · obtain ⟨r, hr, rfl⟩ := List.mem_map.mp hs
      exact joinChar_ne_empty ';' (r.map Prod.snd) (by rw [hrlen r hr]; exact hlen)
  rw [parseCSV, hsplit, List.filter_eq_self.mpr (by simpa using hlineNE)]
  rw [hlines]
  have hhdr : splitChar ';' (joinChar ';' header) = header := by
    refine splitChar_joinChar ';' header (by rintro rfl; simp at hlen) ?_
    exact fun f hf hc => (hheader f hf ';' hc).1 rfl
  have hrow : ∀ r ∈ recs,
      splitChar ';' (joinChar ';' (r.map Prod.snd)) = r.map Prod.snd := by
    intro r hr
    refine splitChar_joinChar ';' (r.map Prod.snd) ?_ ?_
    · have := hrlen r hr
      intro hnil
      rw [hnil] at this
      simp at this
      omega
    · intro v hv hc
      obtain ⟨p, hp, rfl⟩ := List.mem_map.mp hv
      exact (hvals r hr p hp ';' hc).1 rfl
  show parseRows (splitChar ';' (joinChar ';' header))
      ((recs.map (fun r => joinChar ';' (r.map Prod.snd))).map (splitChar ';')) = recs
  rw [hhdr, List.map_map]
  rw [parseRows]
  rw [List.map_map]
  refine List.map_congr_left ?_ |>.trans (List.map_id recs)
  intro r hr
  show mkRecord header (splitChar ';' (joinChar ';' (r.map Prod.snd))) = r
  rw [hrow r hr, mkRecord, hrlen r hr, Nat.sub_self, List.replicate_zero, List.append_nil]
  exact (List.zip_of_prod (hkeys r hr) rfl).symm

/-- C8 witness: the round trip applied to the two-field demo header and
the single record `anaRecord`. -/
theorem parse_serialize_roundtrip_witness :
    parseCSV (serializeRecords ["Nome Comprador", "E-mail Comprador"] [anaRecord]) =
      [anaRecord] :=
  parse_serialize_roundtrip ["Nome Comprador", "E-mail Comprador"] [anaRecord]
    (by decide) (by decide) (by decide) (by decide)

/-- C1: while a fetch-parse cycle is in flight (`loading = true`) a
refresh request is rejected and performs no work; from an idle state, a
first click starts a fetch, a second back-to-back click is rejected and
changes nothing, and completing the single in-flight fetch from the
two-click state gives exactly the state of one click followed by one
completion — only one dataset replacement occurs. -/
theorem refresh_rejected_while_loading :
    (∀ s : AppState, s.loading = true → refreshClick s = (s, false)) ∧
    (∀ s : AppState, s.loading = false →
      (refreshClick s).2 = true ∧
      ((refreshClick s).1).loading = true ∧
      refreshClick ((refreshClick s).1) = ((refreshClick s).1, false) ∧
      ∀ (records : List Transaction) (now : Nat),
        fetchComplete ((refreshClick ((refreshClick s).1)).1) (.success records) now =
          fetchComplete ((refreshClick s).1) (.success records) now) := by
  refine ⟨fun s h => ?_, fun s h => ?_⟩
  · simp [refreshClick, h]
  · simp [refreshClick, fetchStart, h]

/-- C1 witness: the theorem applied to a loading state and to the idle
initial state. -/
theorem refresh_rejected_while_loading_witness :
    refreshClick { initialState with loading := true } =
      ({ initialState with loading := true }, false) ∧
    refreshClick ((refreshClick initialState).1) = ((refreshClick initialState).1, false) :=
  ⟨refresh_rejected_while_loading.1 { initialState with loading := true } rfl,
   (refresh_rejected_while_loading.2 initialState rfl).2.2.1⟩

/-- C4: a failed refresh cycle (HTTP failure, network failure or parse
failure) leaves the previously loaded dataset and the displayed results
unchanged, ends the cycle (`loading = false`), surfaces the displayable
error message, and any query run afterwards returns the same result as
before the failed refresh. -/
theorem failed_refresh_preserves_dataset :
    ∀ (s : AppState) (o : FetchOutcome) (now : Nat) (q : String),
      o.isFailure = true →
      ((fetchComplete (fetchStart s) o now).1).data = s.data ∧
      ((fetchComplete (fetchStart s) o now).1).searchResults = s.searchResults ∧
      ((fetchComplete (fetchStart s) o now).1).loading = false ∧
      ((fetchComplete (fetchStart s) o now).1).error = errorText o ∧
      (errorText o).isSome = true ∧
      searchFilter ((fetchComplete (fetchStart s) o now).1).data q =
        searchFilter s.data q := by
  intro s o now q h
  cases o <;> simp_all [fetchComplete, fetchStart, errorText, FetchOutcome.isFailure]

/-- C4 witness: the theorem applied to a state already holding the demo
dataset and to an HTTP 500 failure. -/
theorem failed_refresh_preserves_dataset_witness :
    ((fetchComplete (fetchStart { initialState with data := parseCSV demoCSV })
        (.httpFailure 500 "Internal Server Error") 7).1).data =
      ({ initialState with data := parseCSV demoCSV } : AppState).data :=
  (failed_refresh_preserves_dataset { initialState with data := parseCSV demoCSV }
    (.httpFailure 500 "Internal Server Error") 7 "ana" rfl).1

/-- C5: a successful refresh replaces the stored dataset by the newly
parsed records, updates the capture timestamp, ends the cycle, and — when
the active search term does not trim to empty — re-runs the search against
the new records and replaces the displayed results by that re-run. -/
theorem successful_refresh_replaces_dataset :
    ∀ (s : AppState) (records : List Transaction) (now : Nat),
      ((fetchComplete (fetchStart s) (.success records) now).1).data = records ∧
      ((fetchComplete (fetchStart s) (.success records) now).1).lastUpdated = some now ∧
      ((fetchComplete (fetchStart s) (.success records) now).1).loading = false ∧
      (jsTrim s.searchTerm ≠ "" →
        ((fetchComplete (fetchStart s) (.success records) now).1).searchResults =
          searchFilter records s.searchTerm) := by
  intro s records now
  by_cases h : jsTrim s.searchTerm = "" <;> simp [fetchComplete, fetchStart, h]

/-- C5 witness: a successful refresh with the active term `"ana"` re-runs
the search against the two freshly parsed demo records. -/
theorem successful_refresh_replaces_dataset_witness :
    ((fetchComplete (fetchStart { initialState with searchTerm := "ana" })
        (.success (parseCSV demoCSV)) 3).1).searchResults =
      searchFilter (parseCSV demoCSV) "ana" :=
  (successful_refresh_replaces_dataset { initialState with searchTerm := "ana" }
    (parseCSV demoCSV) 3).2.2.2 (by decide)

/-- C7: when the active term trims to the empty string, the submit handler
returns without invoking the query engine and without changing anything,
and the post-refresh re-run is likewise skipped, leaving the displayed
results untouched. -/
theorem empty_term_never_queries :
    ∀ (s : AppState) (records : List Transaction) (now : Nat),
      jsTrim s.searchTerm = "" →
      handleSearch s = (s, false) ∧
      (fetchComplete s (.success records) now).2 = false ∧
      ((fetchComplete s (.success records) now).1).searchResults = s.searchResults := by
  intro s records now h
  simp [handleSearch, fetchComplete, h]

/-- C7 witness: the theorem applied to a state whose term is whitespace
only. -/
theorem empty_term_never_queries_witness :
    handleSearch { initialState with searchTerm := "   " } =
      ({ initialState with searchTerm := "   " }, false) :=
  (empty_term_never_queries { initialState with searchTerm := "   " }
    (parseCSV demoCSV) 5 (by decide)).1

/-- C10: every `fetchData` invocation clears the displayed error before
fetching (`setLoading(true); setError(null)`), so during the in-flight
part of a retry no prior error is shown, and after a successful completion
the error is still cleared. -/
theorem refresh_clears_error :
    ∀ (s : AppState) (records : List Transaction) (now : Nat),
      (fetchStart s).error = none ∧
      (fetchStart s).loading = true ∧
      ((fetchComplete (fetchStart s) (.success records) now).1).error = none := by
  intro s records now
  by_cases h : jsTrim s.searchTerm = "" <;> simp [fetchComplete, fetchStart, h]

end Buscador
